import Mathlib

namespace Tailvad

/-!
Verification of the tailvad terminal dashboard (src/main.py and
src/tailscale_utilities.py) against its natural-language specification.

Python strings are embedded as `List Char` (`Str`).  Python operations
that can raise an uncaught exception (list indexing out of range,
`% 0`) are modelled with `Option`, where `none` stands for the raised
exception.
-/

/-- Python `str` embedded as a list of characters. -/
abbrev Str := List Char

/-- The characters Python's `str.strip()` removes (ASCII whitespace). -/
def isPySpace (c : Char) : Bool :=
  c = ' ' || c = '\t' || c = '\n' || c = '\r' || c = '\x0b' || c = '\x0c'

/-- Python `str.strip()`: drop leading and trailing whitespace. -/
def pyStrip (s : Str) : Str :=
  ((s.dropWhile isPySpace).reverse.dropWhile isPySpace).reverse

/-- Python `s.split(sep)` for a single-character separator `sep`. -/
def splitOnChar (sep : Char) : Str → List Str
  | [] => [[]]
  | c :: rest =>
    if c = sep then [] :: splitOnChar sep rest
    else
      match splitOnChar sep rest with
      | [] => [[c]]
      | t :: ts => (c :: t) :: ts

/-- Python `s.split("  ")`: split at each non-overlapping occurrence of two
consecutive space characters, scanning left to right. -/
def splitDouble : Str → List Str
  | [] => [[]]
  | [c] => [[c]]
  | c1 :: c2 :: rest =>
    if c1 = ' ' ∧ c2 = ' ' then [] :: splitDouble rest
    else
      match splitDouble (c2 :: rest) with
      | [] => [[c1]]
      | t :: ts => (c1 :: t) :: ts

/-- Python `a % b` on integers: `none` models the `ZeroDivisionError`
raised when `b = 0`; for `b > 0` the result is in `[0, b)`, which is
`Int.emod`. -/
def pyMod (a b : Int) : Option Int :=
  if b = 0 then none else some (a.emod b)

/-- Python list indexing `l[i]`: negative indices count from the end,
out-of-range indices raise `IndexError` (modelled as `none`). -/
def pyIndex (l : List α) (i : Int) : Option α :=
  if h : 0 ≤ i ∧ i < l.length then
    some (l.get ⟨i.toNat, by omega⟩)
  else if h2 : -(l.length : Int) ≤ i ∧ i < 0 then
    some (l.get ⟨(i + l.length).toNat, by omega⟩)
  else none

/-! ## Fuzzy filter (src/main.py, `fuzzy_match`, lines 23-31)

The Python loop walks the candidate text once, advancing an index into
the query whenever the current text character equals the next unmatched
query character; it returns whether the whole query was consumed.
Consuming the query from the front is the same as tracking `query_idx`. -/

/-- The scanning loop of `fuzzy_match`: `q` is the not-yet-matched suffix
of the (lowercased) query, `t` the remaining (lowercased) text. -/
def fuzzyAux : Str → Str → Bool
  | [], _ => true
  | _ :: _, [] => false
  | q :: qs, c :: ts => if c = q then fuzzyAux qs ts else fuzzyAux (q :: qs) ts

/-- `fuzzy_match(query, text)` from src/main.py: lowercase both, then
greedily match query characters in order against the text. -/
def fuzzy_match (query text : Str) : Bool :=
  fuzzyAux (query.map Char.toLower) (text.map Char.toLower)

/-! ## Inventory parser (src/tailscale_utilities.py)

`IP_PATTERN = (\d+)\.(\d+)\.(\d+)\.(\d+)`.  Because a digit run can only
be followed by a literal dot in the pattern, maximal-munch digit matching
never needs backtracking, so a greedy left-to-right scan has exactly the
semantics of `re.search`. -/

/-- Consume one-or-more digits (`\d+`, greedy): the digits and the rest. -/
def takeDigits1 (s : Str) : Option (Str × Str) :=
  match s with
  | [] => none
  | c :: rest =>
    if c.isDigit then
      some ((c :: rest).takeWhile Char.isDigit, (c :: rest).dropWhile Char.isDigit)
    else none

/-- Consume a literal dot. -/
def expectDot : Str → Option Str
  | '.' :: rest => some rest
  | _ => none

/-- Match `IP_PATTERN` anchored at the head of `s`; returns the matched text. -/
def ipAtGreedy (s : Str) : Option Str := do
  let (d1, r) ← takeDigits1 s
  let r ← expectDot r
  let (d2, r) ← takeDigits1 r
  let r ← expectDot r
  let (d3, r) ← takeDigits1 r
  let r ← expectDot r
  let (d4, _) ← takeDigits1 r
  pure (d1 ++ '.' :: d2 ++ '.' :: d3 ++ '.' :: d4)

/-- `re.search(IP_PATTERN, s)`: the text of the leftmost match, if any. -/
def searchIP : Str → Option Str
  | [] => none
  | c :: rest =>
    match ipAtGreedy (c :: rest) with
    | some m => some m
    | none => searchIP rest

/-- Truthiness of `re.search(IP_PATTERN, s)`. -/
def containsIP (s : Str) : Bool := (searchIP s).isSome

/-- `ExitNodeListEntry` from src/tailscale_utilities.py. -/
structure ExitNodeListEntry where
  ip : Str
  hostname : Str
  country : Str
  city : Str
  status : Str
deriving DecidableEq, Repr

/-- `ExitNodeSuggested` from src/tailscale_utilities.py. -/
structure ExitNodeSuggested where
  hostname : Str
deriving DecidableEq, Repr

/-- `ExitNodeActive` from src/tailscale_utilities.py. -/
structure ExitNodeActive where
  tailscale_ip : Str
  visible_ip : Str
  hostname : Str
deriving DecidableEq, Repr

/-- `[x.strip() for x in line.split("  ") if len(x) > 0]`: note the
emptiness filter runs on the pieces *before* they are stripped. -/
def tokenizeRow (line : Str) : List Str :=
  ((splitDouble line).filter (fun x => decide (0 < x.length))).map pyStrip

/-- The row loop of `get_tailscale_list_nodes`: build one entry per row
from its first five tokens; a row with fewer than five tokens raises
`IndexError` (`none`), aborting the whole call. -/
def parseRows : List Str → Option (List ExitNodeListEntry)
  | [] => some []
  | line :: rest =>
    match tokenizeRow line with
    | ip :: hostname :: country :: city :: status :: _ =>
      (parseRows rest).map
        (fun es => (⟨ip, hostname, country, city, status⟩ : ExitNodeListEntry) :: es)
    | _ => none

/-- `get_tailscale_list_nodes` from src/tailscale_utilities.py, as a
function of the external command's raw output text: keep the lines on
which `re.search(IP_PATTERN, ·)` succeeds, then run the row loop. -/
def get_tailscale_list_nodes (output : Str) : Option (List ExitNodeListEntry) :=
  parseRows ((splitOnChar '\n' output).filter containsIP)

/-- Python `pat in s` on strings: substring containment. -/
def containsSub (pat : Str) : Str → Bool
  | [] => pat.isEmpty
  | c :: rest => List.isPrefixOf pat (c :: rest) || containsSub pat rest

/-- The literal substring `"exit node;"` selecting the active-node line. -/
def exitNodeMarker : Str := "exit node;".data

/-- `get_tailscale_current_exit_node` from src/tailscale_utilities.py.
Outer `none` models an uncaught `IndexError`; `some none` is the
function returning `None` (no active node). -/
def get_tailscale_current_exit_node (output : Str) :
    Option (Option ExitNodeActive) :=
  match (splitOnChar '\n' output).filter (fun x => containsSub exitNodeMarker x) with
  | [] => some none
  | line :: _ =>
    let s := tokenizeRow line
    match s with
    | ip :: hostname :: _ =>
      match searchIP (s.getLastD []) with
      | some visible_ip => some (some ⟨ip, visible_ip, hostname⟩)
      | none => some none
    | _ => none

/-- The literal substring `"Suggested exit node"` selecting the suggestion line. -/
def suggestedMarker : Str := "Suggested exit node".data

/-- `get_tailscale_suggested_exit_node` from src/tailscale_utilities.py.
Outer `none` models an uncaught `IndexError` (no colon on the selected
line); `some none` is the function returning `None` (no suggestion). -/
def get_tailscale_suggested_exit_node (output : Str) :
    Option (Option ExitNodeSuggested) :=
  match (splitOnChar '\n' output).filter (fun x => containsSub suggestedMarker x) with
  | [] => some none
  | line :: _ =>
    match splitOnChar ':' line with
    | _ :: second :: _ =>
      let s := pyStrip second
      let s2 := if s.getLast? = some '.' then s.dropLast else s
      some (some ⟨s2⟩)
    | _ => none

/-! ## C4: the inventory tokenization rule

The claim says rows are tokenized by splitting on runs of two or more
whitespace characters.  The code splits on occurrences of the literal
two-space string, so e.g. a tab run separates nothing. -/

/-- The claim's separator rule, with explicit fuel (one unit per consumed
character) so that the definition reduces inside the kernel: split at each
maximal run of two or more whitespace characters. -/
def splitWsRunF : Nat → Str → List Str
  | _, [] => [[]]
  | _, [c] => [[c]]
  | 0, c1 :: c2 :: rest => [c1 :: c2 :: rest]
  | fuel + 1, c1 :: c2 :: rest =>
    if isPySpace c1 ∧ isPySpace c2 then
      [] :: splitWsRunF fuel ((c2 :: rest).dropWhile isPySpace)
    else
      match splitWsRunF fuel (c2 :: rest) with
      | [] => [[c1]]
      | t :: ts => (c1 :: t) :: ts

/-- The claim's separator rule: split at each maximal run of two or more
whitespace characters.  `s.length` fuel always suffices, since every step
consumes at least one character per fuel unit. -/
def splitWsRun (s : Str) : List Str := splitWsRunF s.length s

/-- The claim's tokenization of a data row: split on whitespace runs,
trim, drop empty tokens. -/
def tokenizeRowWsRun (line : Str) : List Str :=
  ((splitWsRun line).map pyStrip).filter (fun x => decide (0 < x.length))

/-- The inventory parser as the claim describes it: one entry per
IPv4-bearing line, its first five whitespace-run tokens mapped
positionally to the fields. -/
def claimParseInventory (output : Str) : Option (List ExitNodeListEntry) :=
  ((splitOnChar '\n' output).filter containsIP).mapM fun line =>
    match tokenizeRowWsRun line with
    | ip :: hostname :: country :: city :: status :: _ =>
      some (⟨ip, hostname, country, city, status⟩ : ExitNodeListEntry)
    | _ => none

/-- A data row whose columns are separated by a tab run: the claim's rule
tokenizes it into five fields, the code's two-space split does not. -/
def c4Text : Str := "1.2.3.4\t\thost  DE  Berlin  -".data

/-- The entry the code builds from a data row with at least five tokens. -/
def rowEntry (line : Str) : ExitNodeListEntry :=
  { ip := (tokenizeRow line).getD 0 []
    hostname := (tokenizeRow line).getD 1 []
    country := (tokenizeRow line).getD 2 []
    city := (tokenizeRow line).getD 3 []
    status := (tokenizeRow line).getD 4 [] }

/-- The inventory parser as the amended claim describes it: data rows are
the lines containing an IPv4-shaped substring; each is tokenized by
splitting on occurrences of two consecutive spaces, dropping pieces that
are empty before trimming, then trimming; if every data row yields at
least five tokens the result is one entry per data row, in input order,
built from its first five tokens; otherwise the call fails. -/
def specParseInventory (output : Str) : Option (List ExitNodeListEntry) :=
  let rows := (splitOnChar '\n' output).filter containsIP
  if ∀ l ∈ rows, 5 ≤ (tokenizeRow l).length then some (rows.map rowEntry)
  else none

/-! ## C6: the suggestion parser

The claim says everything after the first colon is kept.  The code takes
`line.split(":")[1]`, i.e. only the segment between the first and second
colons. -/

/-- The suggestion parser as the claim describes it: on the first line
containing `"Suggested exit node"`, keep everything after the first colon,
trim, strip one trailing dot; a qualifying line without a colon raises. -/
def claimParseSuggested (output : Str) : Option (Option ExitNodeSuggested) :=
  match (splitOnChar '\n' output).filter (fun x => containsSub suggestedMarker x) with
  | [] => some none
  | line :: _ =>
    match line.dropWhile (fun c => !(c = ':')) with
    | [] => none
    | _ :: afterColon =>
      let s := pyStrip afterColon
      let s2 := if s.getLast? = some '.' then s.dropLast else s
      some (some ⟨s2⟩)

/-- A suggestion line whose hostname field contains a second colon. -/
def c6Text : Str := "Suggested exit node: foo:bar.".data

/-- The amended claim's suggestion parser: on the first line containing
`"Suggested exit node"`, the hostname is the text strictly between the
first colon and the next colon (or end of line), trimmed, with one
trailing dot stripped; a qualifying line with no colon raises. -/
def specParseSuggested (output : Str) : Option (Option ExitNodeSuggested) :=
  match (splitOnChar '\n' output).filter (fun x => containsSub suggestedMarker x) with
  | [] => some none
  | line :: _ =>
    match line.dropWhile (fun c => !(c = ':')) with
    | [] => none
    | _ :: afterColon =>
      let s := pyStrip (afterColon.takeWhile (fun c => !(c = ':')))
      let s2 := if s.getLast? = some '.' then s.dropLast else s
      some (some ⟨s2⟩)

/-! ## C10: absence from the active-node parser -/

/-- A status line containing `"exit node;"` but no two-space separator:
the code's tokenization yields a single token. -/
def c10Text : Str := "exit node; x".data

/-- A status text whose `"exit node;"` line has two tokens and no IPv4
shape in the last one. -/
def c10GoodText : Str := "a  exit node; b".data

/-! ## Windowing (C1)

Both `TailvadTUI.generate_populated_table` and
`CountryFilterMenu.generate_menu` compute
`range(max(0, cursor - 5), max(0, cursor - 5) + height // 2)`. -/

/-- The dashboard table's visible window: `(start, stop)` of the Python
`range` in `generate_populated_table`. -/
def tableVisibleRange (cursor : Int) (height : Nat) : Int × Int :=
  let min_bounds := max 0 (cursor - 5)
  (min_bounds, min_bounds + (height / 2 : Nat))

/-- The country-picker panel's visible window: `(start, stop)` of the
Python `range` in `generate_menu`. -/
def menuVisibleRange (selection : Int) (height : Nat) : Int × Int :=
  let min_bounds := max 0 (selection - 5)
  (min_bounds, min_bounds + (height / 2 : Nat))

/-- Membership of an index in a Python `range(start, stop)`. -/
def inRange (r : Int × Int) (i : Int) : Prop := r.1 ≤ i ∧ i < r.2

instance (r : Int × Int) (i : Int) : Decidable (inRange r i) :=
  inferInstanceAs (Decidable (_ ∧ _))

/-- An inventory entry with empty fields, for concrete states. -/
def blankEntry : ExitNodeListEntry := ⟨[], [], [], [], []⟩

/-! ## Dashboard state and key handling (C2, C3)

The parts of `TailvadTUI.handle_key_press` and the refresh paths that the
claims are about.  External queries (fresh inventory lists) are passed in
as arguments; `set_tailscale_exit_node` and `time.sleep` have no effect on
the dashboard state. -/

/-- The dashboard fields involved in cursor/entries claims. -/
structure TailvadTUI where
  current_selection : Int
  suggested_index : Option Int
  exit_node_entries : List ExitNodeListEntry
  country_filter : Option Str
deriving Repr, DecidableEq

/-- The DOWN / "j" branch of `handle_key_press`:
`(current_selection + 1) % len(exit_node_entries)`; `none` models the
`ZeroDivisionError` raised when the entries list is empty. -/
def handleDown (s : TailvadTUI) : Option TailvadTUI :=
  (pyMod (s.current_selection + 1) s.exit_node_entries.length).map
    (fun v => {s with current_selection := v})

/-- The UP / "k" branch of `handle_key_press`. -/
def handleUp (s : TailvadTUI) : Option TailvadTUI :=
  (pyMod (s.current_selection - 1) s.exit_node_entries.length).map
    (fun v => {s with current_selection := v})

/-- A dashboard state with an empty entries list. -/
def emptyTUI : TailvadTUI :=
  { current_selection := 0, suggested_index := none,
    exit_node_entries := [], country_filter := none }

/-- `refresh_entries`: replace the entries with a freshly queried
inventory; the cursor is not touched. -/
def refresh_entries (s : TailvadTUI) (fresh : List ExitNodeListEntry) :
    TailvadTUI :=
  {s with exit_node_entries := fresh}

/-- The "d" (disconnect) branch: clear the exit node externally, sleep,
then refresh; the dashboard state change is just the refresh. -/
def handleDisconnect (s : TailvadTUI) (fresh : List ExitNodeListEntry) :
    TailvadTUI :=
  refresh_entries s fresh

/-- The "c" (clear filter) branch: drop the filter, reset the cursor to 0,
refresh. -/
def handleClearFilter (s : TailvadTUI) (fresh : List ExitNodeListEntry) :
    TailvadTUI :=
  refresh_entries
    {s with country_filter := none, current_selection := 0} fresh

/-- `_show_filter_menu` when the picker returns a country: set the filter,
reset the cursor to 0, refresh. -/
def applyFilterSelection (s : TailvadTUI) (country : Str)
    (fresh : List ExitNodeListEntry) : TailvadTUI :=
  refresh_entries
    {s with country_filter := some country, current_selection := 0} fresh

/-- A six-entry dashboard state with the cursor on the last row. -/
def c3State : TailvadTUI :=
  { current_selection := 5, suggested_index := none,
    exit_node_entries := List.replicate 6 blankEntry, country_filter := none }

/-! ## Country picker (C7)

`CountryFilterMenu` from src/main.py: the `filter_countries` method and
the key dispatch of `run`. -/

/-- The recomputed filtered list: all countries when the query is empty,
otherwise the fuzzy-matching ones. -/
def filteredOf (q : Str) (all : List Str) : List Str :=
  if q.isEmpty then all else all.filter (fun c => fuzzy_match q c)

/-- The picker's state. -/
structure CountryFilterMenu where
  all_countries : List Str
  filtered_countries : List Str
  search_query : Str
  selection : Int
deriving Repr, DecidableEq

/-- `filter_countries` from src/main.py: recompute the filtered list from
the current query and clamp the selection with
`min(selection, max(0, len(filtered) - 1))`. -/
def filter_countries (m : CountryFilterMenu) : CountryFilterMenu :=
  let filtered := filteredOf m.search_query m.all_countries
  { m with
    filtered_countries := filtered,
    selection := min m.selection (max 0 ((filtered.length : Int) - 1)) }

/-- One backspace keystroke: drop the last query character (a no-op on an
empty query) and recompute. -/
def backspaceUpdate (m : CountryFilterMenu) : CountryFilterMenu :=
  filter_countries {m with search_query := m.search_query.dropLast}

/-- One printable-character keystroke: append to the query and recompute. -/
def insertUpdate (c : Char) (m : CountryFilterMenu) : CountryFilterMenu :=
  filter_countries {m with search_query := m.search_query ++ [c]}

/-- A sequence of printable-character keystrokes. -/
def insertAll (cs : Str) (m : CountryFilterMenu) : CountryFilterMenu :=
  cs.foldl (fun m c => insertUpdate c m) m

/-- The picker's key alphabet as the keyboard driver delivers it. -/
inductive MenuKey where
  | esc | enter | down | up | backspace
  | printable (c : Char)
  | other
deriving Repr, DecidableEq

/-- Result of one pass of the picker's `run` loop body. -/
inductive MenuOutcome where
  | cont (m : CountryFilterMenu)
  | done (result : Option Str)
  | err
deriving Repr, DecidableEq

/-- One pass of the key dispatch in `CountryFilterMenu.run`.  `err` models
an uncaught `IndexError` from `filtered_countries[selection]`; arrow moves
are guarded by a non-emptiness test, so their `%` cannot divide by zero. -/
def menu_step (m : CountryFilterMenu) (k : MenuKey) : MenuOutcome :=
  match k with
  | .esc => .done none
  | .enter =>
    if m.filtered_countries.isEmpty then .done none
    else
      match pyIndex m.filtered_countries m.selection with
      | some c => .done (some c)
      | none => .err
  | .down =>
    if m.filtered_countries.isEmpty then .cont m
    else .cont {m with
      selection := (m.selection + 1).emod m.filtered_countries.length}
  | .up =>
    if m.filtered_countries.isEmpty then .cont m
    else .cont {m with
      selection := (m.selection - 1).emod m.filtered_countries.length}
  | .backspace => .cont (backspaceUpdate m)
  | .printable c => .cont (insertUpdate c m)
  | .other => .cont m

/-- The picker-state invariant: the filtered list is the recomputation of
the current query over the full list (established by `__init__` and by
every call to `filter_countries`). -/
def MenuWf (m : CountryFilterMenu) : Prop :=
  m.filtered_countries = filteredOf m.search_query m.all_countries

/-- A concrete one-country picker state. -/
def pickerM0 : CountryFilterMenu :=
  { all_countries := ["DE".data], filtered_countries := ["DE".data],
    search_query := [], selection := 0 }

/-- A concrete picker state whose filtered list is empty. -/
def pickerMEmpty : CountryFilterMenu :=
  { all_countries := [], filtered_countries := [],
    search_query := [], selection := 0 }

/-! ## Reconciliation poller, one iteration (C8)

`TailvadTUI._poll_status`: the loop checks the stop event in its `while`
condition, refreshes the entries, computes the two convergence tests, and
either terminates with one final render or renders and sleeps.  The
external world's answers for one iteration (the fresh inventory and the
active-node query) are an observation argument; renders are pushed only
when a live display handle is attached. -/

/-- What the external system reports during one poller iteration. -/
structure PollObs where
  entries : List ExitNodeListEntry
  active : Option ExitNodeActive
deriving Repr, DecidableEq

/-- The dashboard state the poller reads and writes. -/
structure PollState where
  stop_polling : Bool
  exit_node_entries : List ExitNodeListEntry
  pending_hostname : Option Str
  live : Bool
deriving Repr, DecidableEq

/-- How one iteration of the polling loop ends. -/
inductive PollResult where
  | stopped | success | again
deriving Repr, DecidableEq

/-- The convergence test of the loop body: `status_selected and is_active`
— some fresh entry carries the target hostname with status "selected",
and the freshly queried active node exists and carries the target
hostname. -/
def pollConverged (hostname : Str) (obs : PollObs) : Bool :=
  (obs.entries.any
    (fun entry => entry.hostname = hostname ∧ entry.status = "selected".data))
  && (match obs.active with
      | some a => decide (a.hostname = hostname)
      | none => false)

/-- One iteration of `_poll_status` for target `hostname`: the new state,
how the iteration ended, and how many renders were pushed. -/
def poll_iteration (hostname : Str) (obs : PollObs) (s : PollState) :
    PollState × PollResult × Nat :=
  if s.stop_polling then (s, .stopped, 0)
  else
    let s1 := {s with exit_node_entries := obs.entries}
    if pollConverged hostname obs then
      ({s1 with pending_hostname := none}, .success, if s1.live then 1 else 0)
    else
      (s1, .again, if s1.live then 1 else 0)

/-- An inventory entry whose hostname is the target and whose status is
"selected". -/
def c8Entry : ExitNodeListEntry :=
  { ip := [], hostname := "h".data, country := [], city := [],
    status := "selected".data }

/-- A converged observation: the target is selected and active. -/
def c8Obs : PollObs :=
  { entries := [c8Entry], active := some ⟨[], [], "h".data⟩ }

/-- A poller state with the stop signal clear and a live display. -/
def c8State : PollState :=
  { stop_polling := false, exit_node_entries := [],
    pending_hostname := some "h".data, live := true }

/-! ## Poller handoff (C9)

`_start_status_polling` sets the *shared* stop event, joins the previous
thread with `timeout=2`, then unconditionally clears the event and starts
the new thread.  If the old poller is inside its 1-second sleep (or a slow
external call) for longer than the join timeout, it never observes the
stop signal: once the starter has cleared the event, the old poller's next
loop-top check sees it unset and keeps iterating alongside the new one.
The model below is a small interleaving semantics of exactly these steps;
one scheduler choice per step, each step atomic. -/

/-- Control point of a poller thread. -/
inductive ThreadPC where
  | loopTop | sleeping | exited
deriving Repr, DecidableEq

/-- Shared state: the stop event, both pollers, and the starter's program
counter (0 = before `set`, 1 = after `set`, 2 = after the timed-out
`join`, 3 = after `clear`, 4 = after `start`). -/
structure PollerSys where
  stopEvent : Bool
  oldPC : ThreadPC
  oldIters : Nat
  newStarted : Bool
  newPC : ThreadPC
  newIters : Nat
  starterPC : Nat
deriving Repr, DecidableEq

/-- Which thread the scheduler runs next. -/
inductive SysThread where
  | oldPoller | newPoller | starter
deriving Repr, DecidableEq

/-- One atomic step of the chosen thread.  A poller at its loop top checks
the stop event and either exits or performs one iteration and sleeps; the
starter performs the four statements of `_start_status_polling` in order,
where the `join(timeout=2)` step returns with the old poller still alive
(the timeout case). -/
def sysStep (t : SysThread) (s : PollerSys) : PollerSys :=
  match t with
  | .oldPoller =>
    match s.oldPC with
    | .loopTop =>
      if s.stopEvent then {s with oldPC := .exited}
      else {s with oldIters := s.oldIters + 1, oldPC := .sleeping}
    | .sleeping => {s with oldPC := .loopTop}
    | .exited => s
  | .newPoller =>
    if !s.newStarted then s
    else
      match s.newPC with
      | .loopTop =>
        if s.stopEvent then {s with newPC := .exited}
        else {s with newIters := s.newIters + 1, newPC := .sleeping}
      | .sleeping => {s with newPC := .loopTop}
      | .exited => s
  | .starter =>
    match s.starterPC with
    | 0 => {s with stopEvent := true, starterPC := 1}
    | 1 => {s with starterPC := 2}
    | 2 => {s with stopEvent := false, starterPC := 3}
    | 3 => {s with newStarted := true, newPC := .loopTop, starterPC := 4}
    | _ => s

/-- Run a schedule. -/
def runSys (tr : List SysThread) (s : PollerSys) : PollerSys :=
  tr.foldl (fun s t => sysStep t s) s

/-- The old poller is mid-sleep when the new start begins. -/
def c9Init : PollerSys :=
  { stopEvent := false, oldPC := .sleeping, oldIters := 0,
    newStarted := false, newPC := .loopTop, newIters := 0, starterPC := 0 }

/-- The starter runs all four statements while the old poller sleeps past
the join timeout; then the old poller wakes and iterates, and the new
poller iterates too. -/
def c9Trace : List SysThread :=
  [.starter, .starter, .starter, .starter, .oldPoller, .oldPoller, .newPoller]

/-! ## Theorems -/

/-- The greedy scan succeeds exactly when the remaining query is a
subsequence of the remaining text. -/
theorem fuzzyAux_iff (t q : Str) : fuzzyAux q t = true ↔ q.Sublist t := by
  induction t generalizing q with
  | nil =>
    cases q with
    | nil => simp [fuzzyAux]
    | cons q0 qs => simp [fuzzyAux]
  | cons c ts ih =>
    cases q with
    | nil => simp [fuzzyAux]
    | cons q0 qs =>
      by_cases hc : c = q0
      · subst hc
        simp only [fuzzyAux, eq_self_iff_true, if_true]
        rw [ih]
        exact List.cons_sublist_cons.symm
      · simp only [fuzzyAux, if_neg hc]
        rw [ih]
        constructor
        · exact fun h => h.cons c
        · intro h
          rcases List.cons_sublist_cons'.mp h with h' | ⟨he, _⟩
          · exact h'
          · exact absurd he.symm hc

/-- C5: `fuzzy_match(query, candidate)` returns true iff the lowercased
query is a (not necessarily contiguous) subsequence of the lowercased
candidate; in particular the empty query matches every candidate,
`fuzzy_match "usa" "United States of America"` is true and
`fuzzy_match "xyz" "France"` is false. -/
theorem fuzzy_match_iff_subsequence :
    (∀ query text : Str,
      fuzzy_match query text = true ↔
        (query.map Char.toLower).Sublist (text.map Char.toLower))
    ∧ (∀ text : Str, fuzzy_match [] text = true)
    ∧ fuzzy_match "usa".data "United States of America".data = true
    ∧ fuzzy_match "xyz".data "France".data = false := by
  refine ⟨fun q t => fuzzyAux_iff _ _,
    fun t => (fuzzyAux_iff (t.map Char.toLower) []).mpr (List.nil_sublist _),
    by decide, by decide⟩

/-- C4 counterexample: on a tab-separated data row the claimed rule yields
exactly one entry while the code raises `IndexError` (fewer than five
two-space tokens), so the claimed tokenization is not the code's. -/
theorem parseInventory_tokenization_counterexample :
    claimParseInventory c4Text =
      some [⟨"1.2.3.4".data, "host".data, "DE".data, "Berlin".data, "-".data⟩]
    ∧ get_tailscale_list_nodes c4Text = none := by
  constructor <;> decide

/-- The row loop succeeds exactly when every row has at least five tokens,
and then returns the positional entries in order. -/
theorem parseRows_eq (rows : List Str) :
    parseRows rows =
      if ∀ l ∈ rows, 5 ≤ (tokenizeRow l).length then some (rows.map rowEntry)
      else none := by
  induction rows with
  | nil => simp [parseRows]
  | cons line rest ih =>
    rcases h : tokenizeRow line with _ | ⟨a, _ | ⟨b, _ | ⟨c, _ | ⟨d, _ | ⟨e, t⟩⟩⟩⟩⟩
    · simp [parseRows, h, List.forall_mem_cons]
    · simp [parseRows, h, List.forall_mem_cons]
    · simp [parseRows, h, List.forall_mem_cons]
    · simp [parseRows, h, List.forall_mem_cons]
    · simp [parseRows, h, List.forall_mem_cons]
    · simp only [parseRows, h, ih]
      by_cases hall : ∀ l ∈ rest, 5 ≤ (tokenizeRow l).length
      · rw [if_pos hall, if_pos]
        · simp [rowEntry, h]
        · intro l hl
          rcases List.mem_cons.mp hl with rfl | hl
          · rw [h]; simp
          · exact hall l hl
      · rw [if_neg hall, if_neg]
        · rfl
        · intro hcon
          exact hall fun l hl => hcon l (List.mem_cons_of_mem _ hl)

/-- C4 amended: on every input, `get_tailscale_list_nodes` equals the
amended specification parser. -/
theorem get_tailscale_list_nodes_eq_spec (output : Str) :
    get_tailscale_list_nodes output = specParseInventory output := by
  unfold get_tailscale_list_nodes specParseInventory
  exact parseRows_eq _

/-- C6 counterexample: with a second colon on the line the code keeps only
the segment between the first two colons ("foo"), not everything after the
first colon ("foo:bar"). -/
theorem parseSuggested_colon_counterexample :
    get_tailscale_suggested_exit_node c6Text = some (some ⟨"foo".data⟩)
    ∧ claimParseSuggested c6Text = some (some ⟨"foo:bar".data⟩)
    ∧ get_tailscale_suggested_exit_node c6Text ≠ claimParseSuggested c6Text := by
  refine ⟨by decide, by decide, by decide⟩

/-- `splitOnChar` is never empty. -/
theorem splitOnChar_ne_nil (sep : Char) (l : Str) : splitOnChar sep l ≠ [] := by
  cases l with
  | nil => simp [splitOnChar]
  | cons c cs =>
    simp only [splitOnChar]
    by_cases h : c = sep
    · simp [h]
    · simp only [if_neg h]
      cases splitOnChar sep cs <;> simp

/-- Structure of `splitOnChar`: the first piece is the text before the
first separator; if a separator occurs, the remaining pieces are the split
of the text after it. -/
theorem splitOnChar_cases (sep : Char) (l : Str) :
    (l.dropWhile (fun c => !(c = sep)) = [] ∧
      splitOnChar sep l = [l.takeWhile (fun c => !(c = sep))]) ∨
    (∃ rest, l.dropWhile (fun c => !(c = sep)) = sep :: rest ∧
      splitOnChar sep l =
        l.takeWhile (fun c => !(c = sep)) :: splitOnChar sep rest) := by
  induction l with
  | nil => left; simp [splitOnChar]
  | cons c cs ih =>
    by_cases h : c = sep
    · right
      subst h
      refine ⟨cs, ?_, ?_⟩
      · simp [List.dropWhile_cons]
      · simp [splitOnChar, List.takeWhile_cons]
    · have htw : (c :: cs).takeWhile (fun c => !(c = sep)) =
          c :: cs.takeWhile (fun c => !(c = sep)) := by
        simp [List.takeWhile_cons, h]
      have hdw : (c :: cs).dropWhile (fun c => !(c = sep)) =
          cs.dropWhile (fun c => !(c = sep)) := by
        simp [List.dropWhile_cons, h]
      rcases ih with ⟨hd, hs⟩ | ⟨rest, hd, hs⟩
      · left
        refine ⟨by rw [hdw]; exact hd, ?_⟩
        simp only [splitOnChar, if_neg h, hs, htw]
      · right
        refine ⟨rest, by rw [hdw]; exact hd, ?_⟩
        simp only [splitOnChar, if_neg h, hs, htw]

/-- C6 amended: on every input, `get_tailscale_suggested_exit_node` equals
the amended specification parser. -/
theorem get_tailscale_suggested_exit_node_eq_spec (output : Str) :
    get_tailscale_suggested_exit_node output = specParseSuggested output := by
  unfold get_tailscale_suggested_exit_node specParseSuggested
  cases hf : (splitOnChar '\n' output).filter (fun x => containsSub suggestedMarker x) with
  | nil => rfl
  | cons line rest =>
    dsimp only
    rcases splitOnChar_cases ':' line with ⟨hd, hs⟩ | ⟨r, hd, hs⟩
    · rw [hs, hd]
    · rw [hs, hd]
      rcases splitOnChar_cases ':' r with ⟨hd2, hs2⟩ | ⟨r2, hd2, hs2⟩
      · rw [hs2]
      · rw [hs2]

/-- C10 counterexample: the line qualifies and its last whitespace-run
token contains no IPv4-shaped substring, yet the code raises `IndexError`
(it unpacks `s[0], s[1]` from fewer than two tokens) instead of returning
absence. -/
theorem parseActiveNode_short_line_counterexample :
    containsSub exitNodeMarker c10Text = true
    ∧ searchIP ((tokenizeRowWsRun c10Text).getLastD []) = none
    ∧ get_tailscale_current_exit_node c10Text = none := by
  refine ⟨by decide, by decide, by decide⟩

/-- C10 amended: when the first `"exit node;"` line yields at least two
two-space tokens, the parser returns absence (not an error, not a partial
record) whenever the last token contains no IPv4-shaped substring; a
qualifying line with fewer than two tokens raises instead. -/
theorem get_tailscale_current_exit_node_absence (output line : Str)
    (rest : List Str)
    (hsel : (splitOnChar '\n' output).filter (fun x => containsSub exitNodeMarker x)
      = line :: rest) :
    (2 ≤ (tokenizeRow line).length →
      searchIP ((tokenizeRow line).getLastD []) = none →
      get_tailscale_current_exit_node output = some none)
    ∧ ((tokenizeRow line).length < 2 →
      get_tailscale_current_exit_node output = none) := by
  unfold get_tailscale_current_exit_node
  rw [hsel]
  dsimp only
  constructor
  · intro h2 hip
    rcases htok : tokenizeRow line with _ | ⟨a, _ | ⟨b, t⟩⟩
    · rw [htok] at h2; simp at h2
    · rw [htok] at h2; simp at h2
    · rw [htok] at hip; rw [hip]
  · intro h2
    rcases htok : tokenizeRow line with _ | ⟨a, _ | ⟨b, t⟩⟩
    · rfl
    · rfl
    · rw [htok] at h2
      simp only [List.length_cons] at h2
      omega

/-- Witness for the amended C10 theorem at a concrete status text. -/
theorem get_tailscale_current_exit_node_absence_witness :
    (splitOnChar '\n' c10GoodText).filter (fun x => containsSub exitNodeMarker x)
      = c10GoodText :: []
    ∧ get_tailscale_current_exit_node c10GoodText = some none := by
  refine ⟨by decide, ?_⟩
  exact (get_tailscale_current_exit_node_absence c10GoodText c10GoodText []
    (by decide)).1 (by decide) (by decide)

/-- C1 counterexample: with six entries, cursor 5 (a legal cursor) and
terminal height 11 the window is `range(0, 5)`, which does not contain
the cursor; the same failure occurs in the picker's window. -/
theorem window_misses_cursor_counterexample :
    (0 : Int) ≤ 5 ∧ (5 : Int) < (List.replicate 6 blankEntry).length
    ∧ ¬ inRange (tableVisibleRange 5 11) 5
    ∧ ¬ inRange (menuVisibleRange 5 11) 5 := by decide

/-- C1 amended: the dashboard and picker windows are computed by the same
rule, and whenever `floor(height/2) ≥ 6` the window contains every
non-negative cursor. -/
theorem window_contains_cursor (cursor : Int) (height : Nat)
    (hc : 0 ≤ cursor) (hh : 6 ≤ height / 2) :
    inRange (tableVisibleRange cursor height) cursor
    ∧ inRange (menuVisibleRange cursor height) cursor
    ∧ tableVisibleRange cursor height = menuVisibleRange cursor height := by
  refine ⟨⟨?_, ?_⟩, ⟨?_, ?_⟩, rfl⟩ <;>
    simp only [tableVisibleRange, menuVisibleRange] <;> omega

/-- Witness for the amended C1 theorem at cursor 7, height 12. -/
theorem window_contains_cursor_witness :
    inRange (tableVisibleRange 7 12) 7 ∧ inRange (menuVisibleRange 7 12) 7 := by
  have h := window_contains_cursor 7 12 (by decide) (by decide)
  exact ⟨h.1, h.2.1⟩

/-- C2: with empty entries, both arrow branches evaluate `x % 0` and raise
`ZeroDivisionError` (modelled as `none`) instead of being a no-op. -/
theorem handle_key_empty_entries_raises :
    handleDown emptyTUI = none ∧ handleUp emptyTUI = none
    ∧ handleDown emptyTUI ≠ some emptyTUI := by decide

/-- C3 counterexample: the disconnect refresh (like the poller's and the
self-healing refresh, all of which are `refresh_entries`) leaves the
cursor at 5 while the fresh list has two entries, so `cursor <
len(entries)` fails on a non-empty list — nothing clamps or resets it. -/
theorem refresh_cursor_counterexample :
    (handleDisconnect c3State (List.replicate 2 blankEntry)).exit_node_entries ≠ []
    ∧ (handleDisconnect c3State (List.replicate 2 blankEntry)).current_selection = 5
    ∧ ¬ (handleDisconnect c3State (List.replicate 2 blankEntry)).current_selection <
        (handleDisconnect c3State (List.replicate 2 blankEntry)).exit_node_entries.length := by
  decide

/-- C3 amended: refresh itself never adjusts the cursor; the clear-filter
key and the filter dialog reset the cursor to 0 *before* refreshing, which
keeps the invariant whenever the fresh list is non-empty, while the
disconnect key, the self-healing refresh and the poller's refresh leave
the cursor unchanged (and can therefore leave it out of range). -/
theorem refresh_cursor_policy (s : TailvadTUI) (country : Str)
    (fresh : List ExitNodeListEntry) (hne : fresh ≠ []) :
    (refresh_entries s fresh).current_selection = s.current_selection
    ∧ (handleDisconnect s fresh).current_selection = s.current_selection
    ∧ (handleClearFilter s fresh).current_selection = 0
    ∧ (applyFilterSelection s country fresh).current_selection = 0
    ∧ (0 ≤ (handleClearFilter s fresh).current_selection
        ∧ (handleClearFilter s fresh).current_selection <
          (handleClearFilter s fresh).exit_node_entries.length)
    ∧ (0 ≤ (applyFilterSelection s country fresh).current_selection
        ∧ (applyFilterSelection s country fresh).current_selection <
          (applyFilterSelection s country fresh).exit_node_entries.length) := by
  have hlen : 0 < (fresh.length : Int) := by
    have := List.length_pos.mpr hne
    exact_mod_cast this
  refine ⟨rfl, rfl, rfl, rfl, ⟨le_refl 0, hlen⟩, ⟨le_refl 0, hlen⟩⟩

/-- Witness for the amended C3 theorem at a concrete state and fresh list. -/
theorem refresh_cursor_policy_witness :
    ([blankEntry] : List ExitNodeListEntry) ≠ []
    ∧ (handleClearFilter c3State [blankEntry]).current_selection = 0 := by
  refine ⟨by decide, ?_⟩
  exact (refresh_cursor_policy c3State "DE".data [blankEntry] (by decide)).2.2.1

theorem filter_countries_all (m : CountryFilterMenu) :
    (filter_countries m).all_countries = m.all_countries := rfl

theorem filter_countries_query (m : CountryFilterMenu) :
    (filter_countries m).search_query = m.search_query := rfl

theorem menuWf_filter_countries (m : CountryFilterMenu) :
    MenuWf (filter_countries m) := rfl

theorem insertAll_all (cs : Str) (m : CountryFilterMenu) :
    (insertAll cs m).all_countries = m.all_countries := by
  induction cs generalizing m with
  | nil => rfl
  | cons c cs ih => exact ih (insertUpdate c m)

theorem insertAll_wf (cs : Str) (m : CountryFilterMenu) (hwf : MenuWf m) :
    MenuWf (insertAll cs m) := by
  induction cs generalizing m with
  | nil => exact hwf
  | cons c cs ih => exact ih (insertUpdate c m) (menuWf_filter_countries _)

theorem backspaceUpdate_all (m : CountryFilterMenu) :
    (backspaceUpdate m).all_countries = m.all_countries := rfl

theorem backspaceUpdate_query (m : CountryFilterMenu) :
    (backspaceUpdate m).search_query = m.search_query.dropLast := rfl

theorem insertAll_query (cs : Str) (m : CountryFilterMenu) :
    (insertAll cs m).search_query = m.search_query ++ cs := by
  induction cs generalizing m with
  | nil => simp [insertAll]
  | cons c cs ih =>
    rw [show insertAll (c :: cs) m = insertAll cs (insertUpdate c m) from rfl, ih]
    simp [insertUpdate, filter_countries]

/-- Iterating enough backspaces from any well-formed state empties the
query and restores the full country list. -/
theorem backspace_iter_restores (k : Nat) :
    ∀ m : CountryFilterMenu, MenuWf m → m.search_query.length ≤ k →
      (backspaceUpdate^[k] m).all_countries = m.all_countries
      ∧ (backspaceUpdate^[k] m).filtered_countries = m.all_countries := by
  induction k with
  | zero =>
    intro m hwf hk
    have hq : m.search_query = [] := List.eq_nil_of_length_eq_zero (by omega)
    refine ⟨rfl, ?_⟩
    rw [Function.iterate_zero_apply, hwf, hq]
    rfl
  | succ k ih =>
    intro m hwf hk
    rw [Function.iterate_succ_apply]
    have hlen : (backspaceUpdate m).search_query.length ≤ k := by
      rw [backspaceUpdate_query]
      have := List.length_dropLast m.search_query
      omega
    have h := ih (backspaceUpdate m) (menuWf_filter_countries _) hlen
    rw [backspaceUpdate_all] at h
    exact h

/-- C7: from any well-formed picker state, inserting any printable
characters and then backspacing at least as many times as the query is
long restores `filtered == all_countries`; every recomputation re-clamps
the selection into `[0, len(filtered) - 1]` when the filtered list is
non-empty (and keeps it non-negative); and when the filtered list is empty
the enter key cancels instead of indexing. -/
theorem picker_restore_and_clamp :
    (∀ (m : CountryFilterMenu) (cs : Str) (k : Nat), MenuWf m →
      m.search_query.length + cs.length ≤ k →
      (backspaceUpdate^[k] (insertAll cs m)).filtered_countries =
        m.all_countries)
    ∧ (∀ m : CountryFilterMenu, 0 ≤ m.selection →
        0 ≤ (filter_countries m).selection
        ∧ ((filter_countries m).filtered_countries ≠ [] →
            (filter_countries m).selection <
              (filter_countries m).filtered_countries.length))
    ∧ (∀ m : CountryFilterMenu, m.filtered_countries = [] →
        menu_step m .enter = .done none) := by
  refine ⟨?_, ?_, ?_⟩
  · intro m cs k hwf hk
    have hq : (insertAll cs m).search_query.length ≤ k := by
      rw [insertAll_query]
      simp only [List.length_append]
      omega
    have h := backspace_iter_restores k (insertAll cs m)
      (insertAll_wf cs m hwf) hq
    rw [h.2, insertAll_all]
  · intro m hsel
    constructor
    · exact le_min hsel (le_max_left 0 _)
    · intro hne
      have hlen : 0 < ((filter_countries m).filtered_countries.length : Int) := by
        have := List.length_pos.mpr hne
        exact_mod_cast this
      have : (filter_countries m).selection ≤
          max 0 (((filter_countries m).filtered_countries.length : Int) - 1) := by
        exact min_le_right _ _
      have hmax : max 0 (((filter_countries m).filtered_countries.length : Int) - 1) =
          ((filter_countries m).filtered_countries.length : Int) - 1 := by
        omega
      omega
  · intro m hemp
    simp [menu_step, hemp]

/-- Witness for the C7 theorem at concrete picker states. -/
theorem picker_restore_and_clamp_witness :
    (backspaceUpdate^[1] (insertAll "x".data pickerM0)).filtered_countries =
      pickerM0.all_countries
    ∧ 0 ≤ (filter_countries pickerM0).selection
    ∧ menu_step pickerMEmpty .enter = .done none := by
  refine ⟨picker_restore_and_clamp.1 pickerM0 "x".data 1 rfl (by decide),
    (picker_restore_and_clamp.2.1 pickerM0 (by decide)).1,
    picker_restore_and_clamp.2.2 pickerMEmpty rfl⟩

/-- C8: with the stop signal set, an iteration terminates at once, pushes
no render and changes nothing; otherwise it installs the fresh entries and
terminates successfully — clearing the pending marker and pushing exactly
one render — precisely when some fresh entry has the target hostname with
status "selected" and the freshly queried active node has the target
hostname; in every other case it pushes exactly one render, leaves the
pending marker alone and goes around again. -/
theorem poll_iteration_spec (hostname : Str) (obs : PollObs) (s : PollState)
    (hlive : s.live = true) :
    (s.stop_polling = true → poll_iteration hostname obs s = (s, .stopped, 0))
    ∧ (s.stop_polling = false →
        ((poll_iteration hostname obs s).2.1 = .success ↔
          ((∃ e ∈ obs.entries,
              e.hostname = hostname ∧ e.status = "selected".data)
            ∧ ∃ a, obs.active = some a ∧ a.hostname = hostname))
        ∧ (poll_iteration hostname obs s).1.exit_node_entries = obs.entries
        ∧ ((poll_iteration hostname obs s).2.1 = .success →
            (poll_iteration hostname obs s).1.pending_hostname = none
            ∧ (poll_iteration hostname obs s).2.2 = 1)
        ∧ ((poll_iteration hostname obs s).2.1 = .again →
            (poll_iteration hostname obs s).2.2 = 1
            ∧ (poll_iteration hostname obs s).1.pending_hostname =
                s.pending_hostname)
        ∧ (poll_iteration hostname obs s).2.1 ≠ .stopped) := by
  constructor
  · intro hstop
    simp [poll_iteration, hstop]
  · intro hstop
    have hcond : pollConverged hostname obs = true ↔
        ((∃ e ∈ obs.entries,
            e.hostname = hostname ∧ e.status = "selected".data)
          ∧ ∃ a, obs.active = some a ∧ a.hostname = hostname) := by
      rw [pollConverged, Bool.and_eq_true, List.any_eq_true]
      constructor
      · rintro ⟨⟨e, he, hsel⟩, hact⟩
        refine ⟨⟨e, he, by simpa using hsel⟩, ?_⟩
        cases ha : obs.active with
        | none => rw [ha] at hact; simp at hact
        | some a =>
          rw [ha] at hact
          exact ⟨a, rfl, by simpa using hact⟩
      · rintro ⟨⟨e, he, hsel⟩, ⟨a, ha, hah⟩⟩
        refine ⟨⟨e, he, by simpa using hsel⟩, ?_⟩
        rw [ha]
        simpa using hah
    cases hc : pollConverged hostname obs with
    | false =>
      have heq : poll_iteration hostname obs s =
          ({s with exit_node_entries := obs.entries}, PollResult.again, 1) := by
        simp [poll_iteration, hstop, hc, hlive]
      rw [heq]
      refine ⟨⟨?_, ?_⟩, rfl, ?_, fun _ => ⟨rfl, rfl⟩, ?_⟩
      · intro hco; simp at hco
      · intro hrhs
        have hct := hcond.mpr hrhs
        rw [hc] at hct
        exact absurd hct (by decide)
      · intro hco; simp at hco
      · intro hco; simp at hco
    | true =>
      have heq : poll_iteration hostname obs s =
          ({s with exit_node_entries := obs.entries, pending_hostname := none},
            PollResult.success, 1) := by
        simp [poll_iteration, hstop, hc, hlive]
      rw [heq]
      refine ⟨⟨fun _ => hcond.mp hc, fun _ => rfl⟩, rfl, fun _ => ⟨rfl, rfl⟩,
        ?_, ?_⟩
      · intro hco; simp at hco
      · intro hco; simp at hco

/-- Witness for the C8 theorem at a concrete converged iteration. -/
theorem poll_iteration_spec_witness :
    (poll_iteration "h".data c8Obs c8State).2.1 = PollResult.success
    ∧ (poll_iteration "h".data c8Obs c8State).1.pending_hostname = none
    ∧ (poll_iteration "h".data c8Obs c8State).2.2 = 1 := by
  have h := (poll_iteration_spec "h".data c8Obs c8State rfl).2 rfl
  have hsucc : (poll_iteration "h".data c8Obs c8State).2.1 =
      PollResult.success := by
    rw [h.1]
    exact ⟨⟨c8Entry, by simp [c8Obs], rfl, rfl⟩,
      ⟨⟨[], [], "h".data⟩, rfl, rfl⟩⟩
  exact ⟨hsucc, (h.2.2.1 hsucc).1, (h.2.2.1 hsucc).2⟩

/-- C9: a schedule in which `_start_status_polling` completes (starter at
PC 4) while the old poller has run no iteration, after which *both* the
old and the new poller execute an iteration and neither has exited — two
pollers run concurrently, because the timed-out `join` is followed by an
unconditional `clear()` of the shared stop event that the sleeping old
poller never saw. -/
theorem poller_overlap_trace :
    (runSys [.starter, .starter, .starter, .starter] c9Init).starterPC = 4
    ∧ (runSys [.starter, .starter, .starter, .starter] c9Init).oldIters = 0
    ∧ (runSys [.starter, .starter, .starter, .starter] c9Init).oldPC ≠
        ThreadPC.exited
    ∧ (runSys c9Trace c9Init).oldIters = 1
    ∧ (runSys c9Trace c9Init).newIters = 1
    ∧ (runSys c9Trace c9Init).oldPC ≠ ThreadPC.exited
    ∧ (runSys c9Trace c9Init).newPC ≠ ThreadPC.exited := by decide

end Tailvad
